import Mathlib

/-!
Shallow embedding of the `Validator` class of the digitized_av_validation
repository (`src/validate.py` across its two iterations: the newer one with a
directory-backed destination and stdout-based MediaConch classification, and
the older one with an S3-backed destination and exit-code classification).

Pure functions of the source become Lean functions; the effectful steps
(S3/SNS calls, filesystem mutation) become explicit state passing over a
`World` record.  Filenames and message strings are modelled as `String`,
directory listings as `List String`.
-/

namespace DigitizedAV

/-! ### Decimal rendering, mirroring Python `str(i)` and `str(i).zfill(2)` -/

/-- The character for a single decimal digit, as produced by Python `str`. -/
def digitChar (d : Nat) : Char :=
  match d with
  | 0 => '0' | 1 => '1' | 2 => '2' | 3 => '3' | 4 => '4'
  | 5 => '5' | 6 => '6' | 7 => '7' | 8 => '8' | 9 => '9'
  | _ => '*'

/-- Fuel-driven digit expansion of a natural number, most significant digit
first; with fuel at least `n` this is the full decimal expansion of `n`. -/
def decStrAux : Nat → Nat → List Char
  | 0, _ => []
  | fuel + 1, n =>
    if n = 0 then [] else decStrAux fuel (n / 10) ++ [digitChar (n % 10)]

/-- Python `str(n)` for a natural number: its decimal representation. -/
def decStr (n : Nat) : String :=
  if n = 0 then "0" else ⟨decStrAux n n⟩

/-- Python `str(n).zfill(2)`: the decimal representation left-padded with
zeros to width (at least) two. -/
def zfill2 (n : Nat) : String :=
  ⟨List.replicate (2 - (decStr n).data.length) '0'⟩ ++ decStr n

/-! ### Suffix and prefix tests on filenames

`glob('*.wav')` selects exactly the directory entries whose name ends in
`.wav`; `str.startswith` and an S3 `Prefix=` listing select strings that
begin with the given prefix.  Both are modelled at the character-list level. -/

/-- `s` ends with `post` (the semantics of a `glob('*<post>')` match and of
Python `str.endswith`). -/
def strEndsWith (s post : String) : Bool :=
  decide (s.data.reverse.take post.data.length = post.data.reverse)

/-- `s` starts with `pre` (the semantics of Python `str.startswith` and of an
S3 key-prefix listing). -/
def strStartsWith (s pre : String) : Bool :=
  decide (s.data.take pre.data.length = pre.data)

/-- Python `str.split(sep)` for a one-character separator, on the character
list: splits at every occurrence of `sep`, keeping empty segments, and yields
one (possibly empty) segment even for the empty string. -/
def splitOnChar (sep : Char) : List Char → List (List Char)
  | [] => [[]]
  | c :: rest =>
    if c = sep then
      [] :: splitOnChar sep rest
    else
      match splitOnChar sep rest with
      | [] => [[c]]
      | seg :: segs => (c :: seg) :: segs

/-- Python `str(filepath).split('_')[-1]`: the last `_`-separated segment of
a path string (the whole string when it contains no underscore). -/
def roleSuffix (filepath : String) : String :=
  ⟨(splitOnChar '_' filepath.data).getLastD filepath.data⟩

/-! ### The data model -/

/-- The `format` attribute of a package; the constructor of `Validator`
rejects every other value. -/
inductive Format where
  | audio
  | video
deriving DecidableEq, Repr

/-- `Validator.get_expected_structure`: the filenames expected in the bag's
payload directory, computed from the format, the refid and the list of master
files found (only its length is consulted, via `len(master_files)`). -/
def get_expected_structure (format : Format) (refid : String)
    (master_files : List String) : List String :=
  match format with
  | .audio =>
    if master_files.length > 1 then
      (refid ++ "_a.mp3") ::
        (List.range master_files.length).map
          (fun i => refid ++ "_ma_" ++ zfill2 (i + 1) ++ ".wav")
    else
      [refid ++ "_a.mp3", refid ++ "_ma.wav"]
  | .video =>
    [refid ++ "_ma.mkv", refid ++ "_me.mov", refid ++ "_a.mp4"]

/-- `Validator.get_master_files`: the entries of the payload data directory
matching `glob('*.wav')` for audio and `glob('*.mkv')` for video.  The
directory listing is passed in as `actual`. -/
def get_master_files (format : Format) (actual : List String) : List String :=
  match format with
  | .audio => actual.filter (fun n => strEndsWith n ".wav")
  | .video => actual.filter (fun n => strEndsWith n ".mkv")

/-- The `'<br>'.join(sorted(l))` rendering used in the asset-mismatch
message. -/
def sortedJoin (l : List String) : String :=
  String.intercalate "<br>" (l.insertionSort (· ≤ ·))

/-- The set comparison performed by `Validator.validate_assets`:
`set(expected_files) != set(actual_files)` raises `AssetValidationError`
with both listings rendered sorted. -/
def structure_compare (expected_files actual_files : List String) :
    Except String Unit :=
  if expected_files.toFinset = actual_files.toFinset then
    Except.ok ()
  else
    Except.error
      ("The files delivered do not match what is expected.<br><br>Expected files:<br>"
        ++ sortedJoin expected_files ++ "<br><br>Actual files:<br>"
        ++ sortedJoin actual_files)

/-- `Validator.validate_assets` on a payload-directory listing `actual`:
recompute the master files, derive the expected structure from their count
and compare the two listings as sets. -/
def validate_assets (format : Format) (refid : String)
    (actual : List String) : Except String Unit :=
  structure_compare
    (get_expected_structure format refid (get_master_files format actual))
    actual

/-- Reads the decimal value back off a digit string; left inverse of the
renderings above, used to prove them injective. -/
def recoverVal (s : String) : Nat :=
  s.data.foldl (fun a c => 10 * a + (c.toNat - 48)) 0

/-- The `n`-th (0-based) multi-part master filename of an audio package,
exactly as interpolated by `get_expected_structure`. -/
def maName (refid : String) (i : Nat) : String :=
  refid ++ "_ma_" ++ zfill2 (i + 1) ++ ".wav"

/-! ### Policy resolution and file-format validation -/

/-- The `policy_map` literal of `Validator.get_policy_path`. -/
def policy_map : List (String × String) :=
  [("a.mp3", "RAC_Audio_A_MP3.xml"),
   ("ma.wav", "RAC_Audio_MA_WAV.xml"),
   ("a.mp4", "RAC_Video_A_MP4.xml"),
   ("ma.mkv", "RAC_Video_MA_FFV1MKV.xml"),
   ("me.mov", "RAC_Video_MEZZ_ProRes.xml")]

/-- `Validator.get_policy_path`: look the last `_`-separated segment of the
filepath up in `policy_map`; a missing binding raises
`FileFormatValidationError` with a `No Mediaconch policy found` message. -/
def get_policy_path (filepath : String) : Except String String :=
  match policy_map.lookup (roleSuffix filepath) with
  | some policy => Except.ok ("mediaconch_policies/" ++ policy)
  | none =>
    Except.error ("No Mediaconch policy found for file " ++ filepath ++ ".")

/-- The two ways `validate_file_formats` raises `FileFormatValidationError`:
from `get_policy_path` finding no binding, or from the MediaConch output
denoting non-conformance.  Both carry the message of the Python exception. -/
inductive FFError where
  | policyNotFound (msg : String)
  | formatInvalid (msg : String)
deriving DecidableEq, Repr

/-- `Validator.validate_file_formats` of the newer iteration: for each file
of the payload data directory, resolve its policy, run MediaConch and fail
when its stdout starts with `fail!`.  The external tool is an oracle
`tool : String → String` giving the decoded stdout for each file. -/
def validate_file_formats (files : List String) (tool : String → String) :
    Except FFError Unit :=
  match files with
  | [] => Except.ok ()
  | f :: rest =>
    match get_policy_path f with
    | Except.error msg => Except.error (FFError.policyNotFound msg)
    | Except.ok _ =>
      if strStartsWith (tool f) "fail!" then
        Except.error (FFError.formatInvalid
          (f ++ " is not valid according to format policy: " ++ tool f))
      else
        validate_file_formats rest tool

/-- `Validator.validate_file_formats` of the older iteration: classification
is by the exit code of `mediaconch -fs <file>` (oracle `exitFs`); on
non-conformance the message interpolates the integer returned by a second
bare `mediaconch <file>` call (oracle `exitBare`). -/
def validate_file_formats_exitcode (files : List String)
    (exitFs exitBare : String → Int) : Except String Unit :=
  match files with
  | [] => Except.ok ()
  | f :: rest =>
    if exitFs f ≠ 0 then
      Except.error (f ++ " is not valid according to format policy: "
        ++ toString (exitBare f))
    else
      validate_file_formats_exitcode rest exitFs exitBare

/-! ### Refid validation

`Validator.validate_refid` tests `re.compile(r"^[a-zA-Z0-9]\x7b32\x7d$")`
against the refid with `re.match`.  Python's `$` anchor matches at the end of
the string or just before one final newline, so the compiled pattern accepts
exactly: 32 characters of the class, or 32 characters of the class followed
by a single `'\n'`. -/

/-- Membership in the character class `[a-zA-Z0-9]`. -/
def refidClass (c : Char) : Bool :=
  ('a' ≤ c && c ≤ 'z') || ('A' ≤ c && c ≤ 'Z') || ('0' ≤ c && c ≤ '9')

/-- Python `re.match` semantics of the compiled refid pattern. -/
def reMatchRefid (s : String) : Bool :=
  (s.data.length == 32 && s.data.all refidClass) ||
    (s.data.length == 33 && (s.data.take 32).all refidClass
      && s.data.getLast? == some '\n')

/-- `Validator.validate_refid`: return `True`, or raise `RefidError` when the
pattern does not match. -/
def validate_refid (refid : String) : Except String Bool :=
  if reMatchRefid refid then
    Except.ok true
  else
    Except.error (refid ++ " is not a valid refid.")

/-- The spec's own reading of the contract (`must match
`^[A-Za-z0-9]\x7b32\x7d$`` as a whole-string regular expression): exactly 32
characters, all alphanumeric.  Stated separately from `reMatchRefid`, which
is translated from the source, so the two can be compared. -/
def refidSpecRegexMatch (s : String) : Bool :=
  s.data.length == 32 && s.data.all refidClass

/-! ### Relocation -/

/-- `Validator.move_to_destination` of the newer iteration: `copytree` the
payload into `destination_dir/refid`.  The destination directory is modelled
as an association list from refid to the list of filenames stored under it;
`copytree` raises `FileExistsError` (re-raised as `AlreadyExistsError`) when
the target path already exists, and otherwise creates it with the payload's
files. -/
def move_to_destination (refid : String) (payload : List String)
    (destination : List (String × List String)) :
    Except String (List (String × List String)) :=
  match destination.lookup refid with
  | some _ =>
    Except.error ("A package with refid " ++ refid
      ++ " is already waiting to be QCed.")
  | none => Except.ok ((refid, payload) :: destination)

/-! ### Cleanup, notification and the orchestrator -/

/-- A terminal notification, as published to SNS: the `outcome` attribute is
`SUCCESS`, or `FAILURE` together with the triggering error's message. -/
inductive Outcome where
  | success
  | failure (msg : String)
deriving DecidableEq, Repr

/-- The state touched by cleanup, relocation and notification: the local
working directory, the source object, the destination objects (S3 keys in
the older iteration), the published notifications, and a counter of cleanup
invocations. -/
structure World where
  workdir : Bool
  sourceObj : Bool
  destKeys : List String
  notifications : List Outcome
  cleanups : Nat
deriving Repr

/-- `Validator.cleanup_binaries` (newer iteration): remove the working
directory; delete the source object only when the job did not fail
(`job_failed` defaults to `False` on the success path). -/
def cleanup_binaries (jobFailed : Bool) (w : World) : World :=
  { w with
    workdir := false
    sourceObj := if jobFailed then w.sourceObj else false
    cleanups := w.cleanups + 1 }

/-- `Validator.cleanup_successful_job` (older iteration): remove the working
directory and delete the source object. -/
def cleanup_successful_job (w : World) : World :=
  { w with workdir := false, sourceObj := false, cleanups := w.cleanups + 1 }

/-- `Validator.cleanup_failed_job` (older iteration): remove the working
directory, then list every destination object under the `refid` prefix and
delete them all; the source object is left alone. -/
def cleanup_failed_job (refid : String) (w : World) : World :=
  { w with
    workdir := false
    destKeys := w.destKeys.filter (fun k => !strStartsWith k refid)
    cleanups := w.cleanups + 1 }

/-- `Validator.deliver_success_notification`: publish one `SUCCESS` event. -/
def deliver_success_notification (w : World) : World :=
  { w with notifications := w.notifications ++ [Outcome.success] }

/-- `Validator.deliver_failure_notification`: publish one `FAILURE` event
carrying the exception's message. -/
def deliver_failure_notification (msg : String) (w : World) : World :=
  { w with notifications := w.notifications ++ [Outcome.failure msg] }

/-- The first error among the sequential pipeline steps, if any: the `try`
block of `Validator.run` stops at the first step that raises. -/
def firstFailure : List (Except String Unit) → Option String
  | [] => none
  | Except.ok () :: rest => firstFailure rest
  | Except.error e :: _ => some e

/-- `Validator.run`: execute the seven fallible pipeline steps in order
(their outcomes are abstracted to the list `steps`); on normal completion
run `cleanup_binaries` and the success notification, and on any raised
exception run `cleanup_binaries(job_failed=True)` and the failure
notification with the exception's message. -/
def run (steps : List (Except String Unit)) (w : World) : World :=
  match firstFailure steps with
  | none => deliver_success_notification (cleanup_binaries false w)
  | some e => deliver_failure_notification e (cleanup_binaries true w)

/-! ## Lemmas -/

/-! ### The decimal rendering -/

theorem digitChar_val {d : Nat} (h : d < 10) : (digitChar d).toNat - 48 = d := by
  interval_cases d <;> rfl

theorem foldl_decStrAux (fuel : Nat) :
    ∀ n, n ≤ fuel →
      (decStrAux fuel n).foldl (fun a c => 10 * a + (c.toNat - 48)) 0 = n := by
  induction fuel with
  | zero =>
    intro n h
    have : n = 0 := Nat.le_zero.mp h
    simp [decStrAux, this]
  | succ fuel ih =>
    intro n h
    by_cases h0 : n = 0
    · simp [decStrAux, h0]
    · have hdivle : n / 10 ≤ fuel := by
        have : n / 10 < n := Nat.div_lt_self (Nat.pos_of_ne_zero h0) (by norm_num)
        omega
      simp only [decStrAux, h0, if_false, List.foldl_append, List.foldl_cons,
        List.foldl_nil, ih (n / 10) hdivle]
      rw [digitChar_val (Nat.mod_lt n (by norm_num))]
      exact Nat.div_add_mod n 10

theorem recoverVal_decStr (n : Nat) : recoverVal (decStr n) = n := by
  by_cases h0 : n = 0
  · simp [recoverVal, decStr, h0]
  · simpa [recoverVal, decStr, h0] using foldl_decStrAux n n le_rfl

theorem foldl_zeros (k : Nat) :
    (List.replicate k '0').foldl (fun a c => 10 * a + (c.toNat - 48)) 0 = 0 := by
  induction k with
  | zero => rfl
  | succ k ih => simpa [List.replicate_succ] using ih

theorem recoverVal_zfill2 (n : Nat) : recoverVal (zfill2 n) = n := by
  have h := recoverVal_decStr n
  simp only [recoverVal, zfill2, String.data_append, List.foldl_append] at *
  rw [foldl_zeros]
  exact h

theorem zfill2_injective : Function.Injective zfill2 := fun a b h => by
  rw [← recoverVal_zfill2 a, ← recoverVal_zfill2 b, h]

theorem zfill2_length (n : Nat) : 2 ≤ (zfill2 n).data.length := by
  simp only [zfill2, String.data_append]
  rw [List.length_append, List.length_replicate]
  omega

/-! ### String helpers -/

theorem str_length_append (s t : String) :
    (s ++ t).data.length = s.data.length + t.data.length := by
  simp [String.data_append]

theorem str_append_cancel_left {r u v : String} (h : r ++ u = r ++ v) :
    u = v := by
  have hd : u.data = v.data := by
    simpa [String.data_append] using congrArg String.data h
  exact String.ext hd

theorem str_append_cancel_right {u v r : String} (h : u ++ r = v ++ r) :
    u = v := by
  have hd : u.data = v.data := by
    simpa [String.data_append] using congrArg String.data h
  exact String.ext hd

theorem strEndsWith_append (s t p : String)
    (h : p.data.length ≤ t.data.length) :
    strEndsWith (s ++ t) p = strEndsWith t p := by
  simp only [strEndsWith, String.data_append, List.reverse_append]
  rw [List.take_append_of_le_length (by simpa using h)]

/-! ### Distinctness of the interpolated filenames -/

theorem maName_length (r : String) (i : Nat) :
    r.data.length + 10 ≤ (maName r i).data.length := by
  have hz := zfill2_length (i + 1)
  simp only [maName, str_length_append, List.length_cons, List.length_nil]
  omega

theorem maName_inj {r : String} {i j : Nat} (h : maName r i = maName r j) :
    i = j := by
  simp only [maName] at h
  have h1 : r ++ "_ma_" ++ zfill2 (i + 1) = r ++ "_ma_" ++ zfill2 (j + 1) :=
    str_append_cancel_right h
  have h2 : zfill2 (i + 1) = zfill2 (j + 1) := str_append_cancel_left h1
  have := zfill2_injective h2
  omega

theorem a3_ne_mw (r : String) : r ++ "_a.mp3" ≠ r ++ "_ma.wav" := fun h =>
  absurd (str_append_cancel_left h) (by decide)

theorem a3_ne_maName (r : String) (i : Nat) : r ++ "_a.mp3" ≠ maName r i := by
  intro h
  have hm := maName_length r i
  have hl := congrArg (fun s => s.data.length) h
  simp only [str_length_append] at hl
  rw [show ("_a.mp3" : String).data.length = 6 from rfl] at hl
  omega

theorem mw_ne_maName (r : String) (i : Nat) : r ++ "_ma.wav" ≠ maName r i := by
  intro h
  have hm := maName_length r i
  have hl := congrArg (fun s => s.data.length) h
  simp only [str_length_append] at hl
  rw [show ("_ma.wav" : String).data.length = 7 from rfl] at hl
  omega

theorem mkv_ne_mov (r : String) : r ++ "_ma.mkv" ≠ r ++ "_me.mov" := fun h =>
  absurd (str_append_cancel_left h) (by decide)

theorem mkv_ne_mp4 (r : String) : r ++ "_ma.mkv" ≠ r ++ "_a.mp4" := fun h =>
  absurd (str_append_cancel_left h) (by decide)

theorem mov_ne_mp4 (r : String) : r ++ "_me.mov" ≠ r ++ "_a.mp4" := fun h =>
  absurd (str_append_cancel_left h) (by decide)

theorem video_names_nodup (r : String) :
    ([r ++ "_ma.mkv", r ++ "_me.mov", r ++ "_a.mp4"] : List String).Nodup := by
  refine List.nodup_cons.mpr ⟨?_, List.nodup_cons.mpr ⟨?_, List.nodup_singleton _⟩⟩
  · intro hmem
    rcases List.mem_cons.mp hmem with h | h
    · exact mkv_ne_mov r h
    · exact mkv_ne_mp4 r (List.mem_singleton.mp h)
  · intro hmem
    exact mov_ne_mp4 r (List.mem_singleton.mp hmem)


/-! ### Which interpolated names count as master files -/

theorem wav_a3 (r : String) : strEndsWith (r ++ "_a.mp3") ".wav" = false := by
  rw [strEndsWith_append r "_a.mp3" ".wav" (by decide)]
  decide

theorem wav_mw (r : String) : strEndsWith (r ++ "_ma.wav") ".wav" = true := by
  rw [strEndsWith_append r "_ma.wav" ".wav" (by decide)]
  decide

theorem wav_maName (r : String) (i : Nat) :
    strEndsWith (maName r i) ".wav" = true := by
  simp only [maName]
  rw [strEndsWith_append (r ++ "_ma_" ++ zfill2 (i + 1)) ".wav" ".wav" le_rfl]
  decide

theorem mkv_ma (r : String) : strEndsWith (r ++ "_ma.mkv") ".mkv" = true := by
  rw [strEndsWith_append r "_ma.mkv" ".mkv" (by decide)]
  decide

/-! ### The structure comparator -/

theorem structure_compare_ok_iff (e a : List String) :
    structure_compare e a = Except.ok () ↔ e.toFinset = a.toFinset := by
  unfold structure_compare
  split <;> simp_all

theorem structure_compare_error_of_ne {e a : List String}
    (h : e.toFinset ≠ a.toFinset) :
    ∃ msg, structure_compare e a = Except.error msg := by
  unfold structure_compare
  rw [if_neg h]
  exact ⟨_, rfl⟩

theorem validate_assets_def (format : Format) (refid : String)
    (actual : List String) :
    validate_assets format refid actual =
      structure_compare
        (get_expected_structure format refid (get_master_files format actual))
        actual := rfl

theorem toFinset_ne_of_mem_left {x : String} {e a : List String}
    (hx : x ∈ e) (hxa : x ∉ a) : e.toFinset ≠ a.toFinset := by
  intro h
  exact hxa (List.mem_toFinset.mp (h ▸ List.mem_toFinset.mpr hx))

theorem toFinset_ne_of_mem_right {x : String} {e a : List String}
    (hx : x ∈ a) (hxe : x ∉ e) : e.toFinset ≠ a.toFinset := fun h =>
  toFinset_ne_of_mem_left hx hxe h.symm

theorem sortedJoin_perm {l l' : List String} (h : l.Perm l') :
    sortedJoin l = sortedJoin l' := by
  unfold sortedJoin
  congr 1
  exact List.eq_of_perm_of_sorted
    ((List.perm_insertionSort _ l).trans (h.trans (List.perm_insertionSort _ l').symm))
    (List.sorted_insertionSort _ l) (List.sorted_insertionSort _ l')

theorem structure_compare_congr {e e' a a' : List String}
    (he : e.Perm e') (ha : a.Perm a') :
    structure_compare e a = structure_compare e' a' := by
  unfold structure_compare
  rw [List.toFinset_eq_of_perm _ _ he, List.toFinset_eq_of_perm _ _ ha,
    sortedJoin_perm he, sortedJoin_perm ha]

/-! ### Shapes of the expected structure -/

theorem get_expected_structure_video (refid : String) (l : List String) :
    get_expected_structure Format.video refid l =
      [refid ++ "_ma.mkv", refid ++ "_me.mov", refid ++ "_a.mp4"] := rfl

theorem get_expected_structure_audio_le_one {l : List String} (refid : String)
    (h : ¬ l.length > 1) :
    get_expected_structure Format.audio refid l =
      [refid ++ "_a.mp3", refid ++ "_ma.wav"] := by
  simp [get_expected_structure, h]

theorem get_expected_structure_audio_gt_one {l : List String} (refid : String)
    (h : l.length > 1) :
    get_expected_structure Format.audio refid l =
      (refid ++ "_a.mp3") :: (List.range l.length).map (maName refid) := by
  simp [get_expected_structure, h, maName]

theorem audio_single_nodup (r : String) :
    ([r ++ "_a.mp3", r ++ "_ma.wav"] : List String).Nodup := by
  refine List.nodup_cons.mpr ⟨?_, List.nodup_singleton _⟩
  intro hmem
  exact a3_ne_mw r (List.mem_singleton.mp hmem)

theorem maName_injective (r : String) : Function.Injective (maName r) :=
  fun _ _ h => maName_inj h

theorem audio_multi_nodup (r : String) (m : Nat) :
    ((r ++ "_a.mp3") :: (List.range m).map (maName r)).Nodup := by
  refine List.nodup_cons.mpr ⟨?_, (List.nodup_range m).map (maName_injective r)⟩
  intro hmem
  rcases List.mem_map.mp hmem with ⟨i, _, hi⟩
  exact a3_ne_maName r i hi.symm

theorem masters_of_single (r : String) :
    get_master_files Format.audio [r ++ "_a.mp3", r ++ "_ma.wav"] =
      [r ++ "_ma.wav"] := by
  simp [get_master_files, List.filter_cons, wav_a3 r, wav_mw r]

theorem masters_of_multi (r : String) (m : Nat) :
    get_master_files Format.audio
        ((r ++ "_a.mp3") :: (List.range m).map (maName r)) =
      (List.range m).map (maName r) := by
  simp only [get_master_files, List.filter_cons, wav_a3 r, Bool.false_eq_true,
    if_false]
  apply List.filter_eq_self.mpr
  intro a ha
  rcases List.mem_map.mp ha with ⟨i, _, rfl⟩
  exact wav_maName r i

/-! ## Claims -/

/-- Claim C1: the Expected-Structure Resolver returns exactly the spec's set.  For
audio with at most one master it returns the access file and the unsuffixed
master; for audio with `N > 1` masters it returns the single access file
together with `refid_ma_01.wav` through `refid_ma_NN.wav` (zero-padded to two
digits, 1-based) and no unsuffixed master, with exactly one access file; for
video it returns the fixed master/mezzanine/access triple whatever the master
count. -/
theorem expected_structure_resolver_claim (refid : String)
    (master_files : List String) :
    (master_files.length ≤ 1 →
      get_expected_structure Format.audio refid master_files =
        [refid ++ "_a.mp3", refid ++ "_ma.wav"]) ∧
    (master_files.length > 1 →
      (∀ s, s ∈ get_expected_structure Format.audio refid master_files ↔
        (s = refid ++ "_a.mp3" ∨
          ∃ i, 1 ≤ i ∧ i ≤ master_files.length ∧
            s = refid ++ "_ma_" ++ zfill2 i ++ ".wav")) ∧
      (refid ++ "_ma.wav") ∉
        get_expected_structure Format.audio refid master_files ∧
      (get_expected_structure Format.audio refid master_files).count
        (refid ++ "_a.mp3") = 1) ∧
    (∀ i, i < 100 → (zfill2 i).data.length = 2) ∧
    get_expected_structure Format.video refid master_files =
      [refid ++ "_ma.mkv", refid ++ "_me.mov", refid ++ "_a.mp4"] := by
  refine ⟨?_, ?_, by decide, rfl⟩
  · intro h
    exact get_expected_structure_audio_le_one refid (by omega)
  · intro h
    rw [get_expected_structure_audio_gt_one refid h]
    refine ⟨?_, ?_, ?_⟩
    · intro s
      simp only [List.mem_cons, List.mem_map, List.mem_range, maName]
      constructor
      · rintro (rfl | ⟨i, hi, rfl⟩)
        · exact Or.inl rfl
        · exact Or.inr ⟨i + 1, by omega, by omega, rfl⟩
      · rintro (rfl | ⟨i, hi1, hi2, rfl⟩)
        · exact Or.inl rfl
        · exact Or.inr ⟨i - 1, by omega, by rw [Nat.sub_add_cancel hi1]⟩
    · intro hmem
      rcases List.mem_cons.mp hmem with hmw | hmw
      · exact a3_ne_mw refid hmw.symm
      · rcases List.mem_map.mp hmw with ⟨i, _, hi⟩
        exact mw_ne_maName refid i hi.symm
    · rw [List.count_cons_self, List.count_eq_zero.mpr, Nat.zero_add]
      intro hmem
      rcases List.mem_map.mp hmem with ⟨i, _, hi⟩
      exact a3_ne_maName refid i hi.symm

/-- Witness for C1 at a two-master audio package: the unsuffixed master name
is not expected. -/
theorem expected_structure_resolver_claim_witness :
    ("r" ++ "_ma.wav") ∉
      get_expected_structure Format.audio "r" ["x", "y"] :=
  ((expected_structure_resolver_claim "r" ["x", "y"]).2.1 (by decide)).2.1

/-- Claim C2: on the failure path, cleanup deletes the local working directory,
keeps the source object, and (in the S3-backed iteration's
`cleanup_failed_job`) deletes exactly the destination keys under the `refid`
prefix; on the success path cleanup deletes the working directory and the
source object. -/
theorem cleanup_claim (refid : String) (w : World) :
    (cleanup_failed_job refid w).workdir = false ∧
    (cleanup_failed_job refid w).sourceObj = w.sourceObj ∧
    (∀ k, k ∈ (cleanup_failed_job refid w).destKeys ↔
      (k ∈ w.destKeys ∧ strStartsWith k refid = false)) ∧
    (cleanup_binaries true w).workdir = false ∧
    (cleanup_binaries true w).sourceObj = w.sourceObj ∧
    (cleanup_successful_job w).workdir = false ∧
    (cleanup_successful_job w).sourceObj = false ∧
    (cleanup_successful_job w).destKeys = w.destKeys ∧
    (cleanup_binaries false w).workdir = false ∧
    (cleanup_binaries false w).sourceObj = false := by
  refine ⟨rfl, rfl, ?_, rfl, rfl, rfl, rfl, rfl, rfl, rfl⟩
  intro k
  simp [cleanup_failed_job, List.mem_filter]

theorem firstFailure_eq_none_iff (steps : List (Except String Unit)) :
    firstFailure steps = none ↔ ∀ s ∈ steps, s = Except.ok () := by
  induction steps with
  | nil => simp [firstFailure]
  | cons s rest ih =>
    cases s with
    | ok u =>
      cases u
      simp [firstFailure, ih]
    | error e => simp [firstFailure]

/-- Claim C3: every invocation of `run` performs exactly one cleanup and appends
exactly one terminal notification, which is `SUCCESS` exactly when every
pipeline step succeeded and otherwise `FAILURE` with the first error's
message. -/
theorem run_claim (steps : List (Except String Unit)) (w : World) :
    (run steps w).cleanups = w.cleanups + 1 ∧
    ∃ o, (run steps w).notifications = w.notifications ++ [o] ∧
      (o = Outcome.success ↔ ∀ s ∈ steps, s = Except.ok ()) ∧
      (∀ e, firstFailure steps = some e → o = Outcome.failure e) := by
  unfold run
  cases hff : firstFailure steps with
  | none =>
    refine ⟨rfl, Outcome.success, rfl, ?_, ?_⟩
    · exact ⟨fun _ => (firstFailure_eq_none_iff steps).mp hff, fun _ => rfl⟩
    · intro e he
      exact Option.noConfusion he
  | some e =>
    refine ⟨rfl, Outcome.failure e, rfl, ?_, ?_⟩
    · constructor
      · intro h
        cases h
      · intro hall
        have h0 := (firstFailure_eq_none_iff steps).mpr hall
        rw [hff] at h0
        exact Option.noConfusion h0
    · intro e' he'
      rw [Option.some_inj.mp he']

/-- Witness for C3: a run whose first step fails still counts exactly one
cleanup. -/
theorem run_claim_witness :
    (run [Except.error "boom"]
      (World.mk true true [] [] 0)).cleanups = 1 :=
  (run_claim [Except.error "boom"] (World.mk true true [] [] 0)).1

/-- Claim C9: directory-backed relocation fails with `AlreadyExistsError` when the
destination already holds the refid, and on a fresh path succeeds leaving the
whole payload at `destination/refid` and every other refid untouched. -/
theorem move_to_destination_claim (refid : String) (payload : List String)
    (destination : List (String × List String)) :
    ((destination.lookup refid).isSome = true →
      move_to_destination refid payload destination =
        Except.error ("A package with refid " ++ refid
          ++ " is already waiting to be QCed.")) ∧
    (destination.lookup refid = none →
      ∃ d, move_to_destination refid payload destination = Except.ok d ∧
        d.lookup refid = some payload ∧
        ∀ r, r ≠ refid → d.lookup r = destination.lookup r) := by
  constructor
  · intro h
    unfold move_to_destination
    cases hl : destination.lookup refid with
    | some v => rfl
    | none => rw [hl] at h; cases h
  · intro h
    refine ⟨(refid, payload) :: destination, ?_, ?_, ?_⟩
    · unfold move_to_destination
      rw [h]
    · simp [List.lookup]
    · intro r hr
      simp [List.lookup, beq_eq_false_iff_ne.mpr hr]

/-- Witness for C9: a refid collision at the destination raises the
`AlreadyExistsError` message. -/
theorem move_to_destination_claim_witness :
    move_to_destination "x" ["f"] [("x", ["g"])] =
      Except.error "A package with refid x is already waiting to be QCed." :=
  (move_to_destination_claim "x" ["f"] [("x", ["g"])]).1 rfl

/-- Claim C10: the master-file count driving the expected structure is the number
of payload entries ending in `.wav` (audio) or `.mkv` (video), irrespective
of role suffix; a payload with one true master plus one extra non-master
`.wav` therefore expects the multi-part master names instead of the
unsuffixed one. -/
theorem master_files_by_extension_claim :
    (∀ (actual : List String) (name : String),
      name ∈ get_master_files Format.audio actual ↔
        (name ∈ actual ∧ strEndsWith name ".wav" = true)) ∧
    (∀ (actual : List String) (name : String),
      name ∈ get_master_files Format.video actual ↔
        (name ∈ actual ∧ strEndsWith name ".mkv" = true)) ∧
    (get_master_files Format.audio
        ["b90862f3baceaae3b7418c78f9d50d52_ma.wav",
         "b90862f3baceaae3b7418c78f9d50d52_intro.wav",
         "b90862f3baceaae3b7418c78f9d50d52_a.mp3"]).length = 2 ∧
    get_expected_structure Format.audio "b90862f3baceaae3b7418c78f9d50d52"
        (get_master_files Format.audio
          ["b90862f3baceaae3b7418c78f9d50d52_ma.wav",
           "b90862f3baceaae3b7418c78f9d50d52_intro.wav",
           "b90862f3baceaae3b7418c78f9d50d52_a.mp3"]) =
      ["b90862f3baceaae3b7418c78f9d50d52_a.mp3",
       "b90862f3baceaae3b7418c78f9d50d52_ma_01.wav",
       "b90862f3baceaae3b7418c78f9d50d52_ma_02.wav"] ∧
    "b90862f3baceaae3b7418c78f9d50d52_ma.wav" ∉
      get_expected_structure Format.audio "b90862f3baceaae3b7418c78f9d50d52"
        (get_master_files Format.audio
          ["b90862f3baceaae3b7418c78f9d50d52_ma.wav",
           "b90862f3baceaae3b7418c78f9d50d52_intro.wav",
           "b90862f3baceaae3b7418c78f9d50d52_a.mp3"]) := by
  refine ⟨?_, ?_, by decide, by decide, by decide⟩
  · intro actual name
    simp [get_master_files, List.mem_filter]
  · intro actual name
    simp [get_master_files, List.mem_filter]

/-- Claim C7: the Structure Comparator succeeds exactly when expected and actual
filename sets coincide; the outcome is unchanged by permuting or duplicating
the actual listing, and the whole result — message included — is a function
of the two underlying sets for duplicate-free listings. -/
theorem structure_comparator_claim :
    (∀ e a : List String,
      structure_compare e a = Except.ok () ↔ e.toFinset = a.toFinset) ∧
    (∀ e a a' : List String, a'.toFinset = a.toFinset →
      (structure_compare e a').isOk = (structure_compare e a).isOk) ∧
    (∀ e e' a a' : List String, e.Nodup → e'.Nodup → a.Nodup → a'.Nodup →
      e'.toFinset = e.toFinset → a'.toFinset = a.toFinset →
      structure_compare e' a' = structure_compare e a) := by
  refine ⟨structure_compare_ok_iff, ?_, ?_⟩
  · intro e a a' h
    unfold structure_compare
    rw [h]
    by_cases hc : e.toFinset = a.toFinset
    · rw [if_pos hc, if_pos hc]
    · rw [if_neg hc, if_neg hc]
      rfl
  · intro e e' a a' hne hne' hna hna' he ha
    exact structure_compare_congr
      (List.perm_of_nodup_nodup_toFinset_eq hne' hne he)
      (List.perm_of_nodup_nodup_toFinset_eq hna' hna ha)

/-- Witness for C7: duplicating an entry of the actual listing does not
change the comparator's outcome. -/
theorem structure_comparator_claim_witness :
    (structure_compare ["x"] ["y", "y"]).isOk =
      (structure_compare ["x"] ["y"]).isOk :=
  structure_comparator_claim.2.1 ["x"] ["y"] ["y", "y"] (by decide)

/-- Counterexample for C4: the claim says `validate_refid` rejects every string
outside the language of `^[A-Za-z0-9]\x7b32\x7d$`, but 32 `'a'`s followed by
a newline are outside that language and still accepted, because Python's `$`
anchor also matches just before one final newline. -/
theorem validate_refid_counterexample :
    refidSpecRegexMatch (String.mk (List.replicate 32 'a' ++ ['\n'])) = false ∧
    validate_refid (String.mk (List.replicate 32 'a' ++ ['\n'])) =
      Except.ok true := by
  exact ⟨by decide, rfl⟩

/-- Claim C4 as amended: `validate_refid` passes exactly the strings of 32
alphanumeric characters, or of 32 alphanumeric characters followed by one
final newline (Python's `$` matching before a trailing newline); every other
string fails with the `RefidError` message.  In particular every
32-character alphanumeric string passes. -/
theorem validate_refid_amended (s : String) :
    (validate_refid s = Except.ok true ↔
      (refidSpecRegexMatch s = true ∨
        (s.data.length = 33 ∧ (s.data.take 32).all refidClass = true ∧
          s.data.getLast? = some '\n'))) ∧
    (validate_refid s = Except.ok true ∨
      validate_refid s = Except.error (s ++ " is not a valid refid.")) ∧
    (refidSpecRegexMatch s = true → validate_refid s = Except.ok true) := by
  have hiff : validate_refid s = Except.ok true ↔ reMatchRefid s = true := by
    unfold validate_refid
    by_cases h : reMatchRefid s
    · simp [h]
    · simp [h]
  have hchar : reMatchRefid s = true ↔
      (refidSpecRegexMatch s = true ∨
        (s.data.length = 33 ∧ (s.data.take 32).all refidClass = true ∧
          s.data.getLast? = some '\n')) := by
    unfold reMatchRefid refidSpecRegexMatch
    simp [Bool.or_eq_true, Bool.and_eq_true, beq_iff_eq, and_assoc]
  refine ⟨hiff.trans hchar, ?_, ?_⟩
  · unfold validate_refid
    by_cases h : reMatchRefid s
    · simp [h]
    · simp [h]
  · intro h
    exact hiff.mpr (hchar.mpr (Or.inl h))

/-- Witness for C4's amended theorem: a well-formed refid passes. -/
theorem validate_refid_amended_witness :
    validate_refid "b90862f3baceaae3b7418c78f9d50d52" = Except.ok true :=
  (validate_refid_amended "b90862f3baceaae3b7418c78f9d50d52").2.2 (by decide)

theorem get_policy_path_error_inv {fp msg : String}
    (h : get_policy_path fp = Except.error msg) :
    policy_map.lookup (roleSuffix fp) = none ∧
    msg = "No Mediaconch policy found for file " ++ fp ++ "." := by
  unfold get_policy_path at h
  cases hl : policy_map.lookup (roleSuffix fp) with
  | some p =>
    rw [hl] at h
    exact Except.noConfusion h
  | none =>
    rw [hl] at h
    exact ⟨rfl, (Except.error.inj h).symm⟩

theorem get_policy_path_ok_of_isSome {fp : String}
    (h : (policy_map.lookup (roleSuffix fp)).isSome = true) :
    ∃ p, get_policy_path fp = Except.ok p := by
  unfold get_policy_path
  cases hl : policy_map.lookup (roleSuffix fp) with
  | some p => exact ⟨_, rfl⟩
  | none =>
    rw [hl] at h
    exact Bool.noConfusion h

theorem validate_file_formats_error_inv :
    ∀ (files : List String) (tool : String → String) (e : FFError),
      validate_file_formats files tool = Except.error e →
      (∃ f, f ∈ files ∧ policy_map.lookup (roleSuffix f) = none ∧
        e = FFError.policyNotFound
          ("No Mediaconch policy found for file " ++ f ++ ".")) ∨
      (∃ f, f ∈ files ∧ strStartsWith (tool f) "fail!" = true ∧
        e = FFError.formatInvalid
          (f ++ " is not valid according to format policy: " ++ tool f)) := by
  intro files
  induction files with
  | nil =>
    intro tool e h
    exact Except.noConfusion h
  | cons f rest ih =>
    intro tool e h
    unfold validate_file_formats at h
    cases hp : get_policy_path f with
    | error msg =>
      rw [hp] at h
      rcases get_policy_path_error_inv hp with ⟨hnone, rfl⟩
      exact Or.inl ⟨f, List.mem_cons_self f rest, hnone,
        (Except.error.inj h).symm⟩
    | ok p =>
      rw [hp] at h
      by_cases hfail : strStartsWith (tool f) "fail!" = true
      · rw [if_pos hfail] at h
        exact Or.inr ⟨f, List.mem_cons_self f rest, hfail,
          (Except.error.inj h).symm⟩
      · rw [if_neg hfail] at h
        rcases ih tool e h with ⟨f', hm, hrest⟩ | ⟨f', hm, hrest⟩
        · exact Or.inl ⟨f', List.mem_cons_of_mem f hm, hrest⟩
        · exact Or.inr ⟨f', List.mem_cons_of_mem f hm, hrest⟩

theorem validate_file_formats_ok_iff :
    ∀ (files : List String) (tool : String → String),
      (∀ f ∈ files, (policy_map.lookup (roleSuffix f)).isSome = true) →
      (validate_file_formats files tool = Except.ok () ↔
        ∀ f ∈ files, strStartsWith (tool f) "fail!" = false) := by
  intro files
  induction files with
  | nil =>
    intro tool _
    simp [validate_file_formats]
  | cons f rest ih =>
    intro tool hpol
    rcases get_policy_path_ok_of_isSome
      (hpol f (List.mem_cons_self f rest)) with ⟨p, hp⟩
    have hrest := ih tool (fun g hg => hpol g (List.mem_cons_of_mem f hg))
    unfold validate_file_formats
    rw [hp]
    by_cases hfail : strStartsWith (tool f) "fail!" = true
    · rw [if_pos hfail]
      constructor
      · intro h
        exact Except.noConfusion h
      · intro h
        rw [h f (List.mem_cons_self f rest)] at hfail
        exact Bool.noConfusion hfail
    · rw [if_neg hfail]
      rw [hrest]
      constructor
      · intro h g hg
        rcases List.mem_cons.mp hg with rfl | hg'
        · exact Bool.of_not_eq_true hfail
        · exact h g hg'
      · intro h g hg
        exact h g (List.mem_cons_of_mem f hg)

theorem pass_not_fail {s : String} (h : strStartsWith s "pass!" = true) :
    strStartsWith s "fail!" = false := by
  unfold strStartsWith at h ⊢
  rw [decide_eq_true_eq] at h
  apply decide_eq_false
  intro heq
  rw [show ("fail!" : String).data.length = 5 from rfl] at heq
  rw [show ("pass!" : String).data.length = 5 from rfl] at h
  rw [h] at heq
  exact absurd heq (by decide)

theorem validate_file_formats_exitcode_ok_iff :
    ∀ (files : List String) (exitFs exitBare : String → Int),
      (validate_file_formats_exitcode files exitFs exitBare = Except.ok () ↔
        ∀ f ∈ files, exitFs f = 0) := by
  intro files
  induction files with
  | nil =>
    intro exitFs exitBare
    simp [validate_file_formats_exitcode]
  | cons f rest ih =>
    intro exitFs exitBare
    unfold validate_file_formats_exitcode
    by_cases h0 : exitFs f = 0
    · rw [if_neg (by simpa using h0), ih]
      constructor
      · intro h g hg
        rcases List.mem_cons.mp hg with rfl | hg'
        · exact h0
        · exact h g hg'
      · intro h g hg
        exact h g (List.mem_cons_of_mem f hg)
    · rw [if_pos (by simpa using h0)]
      constructor
      · intro h
        exact Except.noConfusion h
      · intro h
        exact absurd (h f (List.mem_cons_self f rest)) h0

/-- Claim C5: every suffix legally appearing in an Expected Structure resolves to
exactly one policy document; an unmapped suffix produces the
`No Mediaconch policy found` error, which is a different error shape from
the conformance failure produced from the external tool's output. -/
theorem policy_resolver_claim :
    (∀ fp, roleSuffix fp = "a.mp3" →
      get_policy_path fp =
        Except.ok "mediaconch_policies/RAC_Audio_A_MP3.xml") ∧
    (∀ fp, roleSuffix fp = "ma.wav" →
      get_policy_path fp =
        Except.ok "mediaconch_policies/RAC_Audio_MA_WAV.xml") ∧
    (∀ fp, roleSuffix fp = "a.mp4" →
      get_policy_path fp =
        Except.ok "mediaconch_policies/RAC_Video_A_MP4.xml") ∧
    (∀ fp, roleSuffix fp = "ma.mkv" →
      get_policy_path fp =
        Except.ok "mediaconch_policies/RAC_Video_MA_FFV1MKV.xml") ∧
    (∀ fp, roleSuffix fp = "me.mov" →
      get_policy_path fp =
        Except.ok "mediaconch_policies/RAC_Video_MEZZ_ProRes.xml") ∧
    (∀ fp, roleSuffix fp ∉ ["a.mp3", "ma.wav", "a.mp4", "ma.mkv", "me.mov"] →
      get_policy_path fp =
        Except.error ("No Mediaconch policy found for file " ++ fp ++ ".")) ∧
    (∀ (files : List String) (tool : String → String) (e : FFError),
      validate_file_formats files tool = Except.error e →
      (∃ f, f ∈ files ∧ policy_map.lookup (roleSuffix f) = none ∧
        e = FFError.policyNotFound
          ("No Mediaconch policy found for file " ++ f ++ ".")) ∨
      (∃ f, f ∈ files ∧ strStartsWith (tool f) "fail!" = true ∧
        e = FFError.formatInvalid
          (f ++ " is not valid according to format policy: " ++ tool f))) ∧
    (∀ m₁ m₂, FFError.policyNotFound m₁ ≠ FFError.formatInvalid m₂) := by
  refine ⟨?_, ?_, ?_, ?_, ?_, ?_, validate_file_formats_error_inv, ?_⟩
  · intro fp h
    unfold get_policy_path
    rw [h]
    rfl
  · intro fp h
    unfold get_policy_path
    rw [h]
    rfl
  · intro fp h
    unfold get_policy_path
    rw [h]
    rfl
  · intro fp h
    unfold get_policy_path
    rw [h]
    rfl
  · intro fp h
    unfold get_policy_path
    rw [h]
    rfl
  · intro fp h
    simp only [List.mem_cons, List.mem_singleton, not_or] at h
    obtain ⟨h1, h2, h3, h4, h5, _⟩ := h
    unfold get_policy_path policy_map
    rw [List.lookup_cons, List.lookup_cons, List.lookup_cons,
      List.lookup_cons, List.lookup_cons]
    rw [beq_eq_false_iff_ne.mpr h1, beq_eq_false_iff_ne.mpr h2,
      beq_eq_false_iff_ne.mpr h3, beq_eq_false_iff_ne.mpr h4,
      beq_eq_false_iff_ne.mpr h5]
    rfl
  · intro m₁ m₂ h
    exact FFError.noConfusion h

/-- Witness for C5: a filename with the `a.mp3` suffix resolves to the MP3
policy, and a `.txt` file hits the policy-not-found error. -/
theorem policy_resolver_claim_witness :
    get_policy_path "bar_a.mp3" =
      Except.ok "mediaconch_policies/RAC_Audio_A_MP3.xml" ∧
    get_policy_path "foo.txt" =
      Except.error "No Mediaconch policy found for file foo.txt." :=
  ⟨policy_resolver_claim.1 "bar_a.mp3" (by decide),
    policy_resolver_claim.2.2.2.2.2.1 "foo.txt" (by decide)⟩

/-- Claim C8: with every file's suffix mapped, the Format Validator completes
without error exactly when no file's MediaConch stdout begins with `fail!`
(in particular when every output begins with `pass!`); a conformance error
carries the failing file's full diagnostic text verbatim.  In the exit-code
iteration, non-conformance is classified exactly by a non-zero exit code. -/
theorem format_validator_claim :
    (∀ (files : List String) (tool : String → String),
      (∀ f ∈ files, (policy_map.lookup (roleSuffix f)).isSome = true) →
      (validate_file_formats files tool = Except.ok () ↔
        ∀ f ∈ files, strStartsWith (tool f) "fail!" = false)) ∧
    (∀ (files : List String) (tool : String → String) (msg : String),
      validate_file_formats files tool =
          Except.error (FFError.formatInvalid msg) →
      ∃ f, f ∈ files ∧ strStartsWith (tool f) "fail!" = true ∧
        msg = f ++ " is not valid according to format policy: " ++ tool f) ∧
    (∀ (files : List String) (tool : String → String),
      (∀ f ∈ files, (policy_map.lookup (roleSuffix f)).isSome = true ∧
        strStartsWith (tool f) "pass!" = true) →
      validate_file_formats files tool = Except.ok ()) ∧
    (∀ (files : List String) (exitFs exitBare : String → Int),
      validate_file_formats_exitcode files exitFs exitBare = Except.ok () ↔
        ∀ f ∈ files, exitFs f = 0) := by
  refine ⟨validate_file_formats_ok_iff, ?_, ?_,
    validate_file_formats_exitcode_ok_iff⟩
  · intro files tool msg h
    rcases validate_file_formats_error_inv files tool _ h with
      ⟨f, _, _, hne⟩ | ⟨f, hm, hfail, heq⟩
    · exact absurd hne (fun he => FFError.noConfusion he)
    · exact ⟨f, hm, hfail, FFError.formatInvalid.inj heq⟩
  · intro files tool h
    exact (validate_file_formats_ok_iff files tool fun f hf => (h f hf).1).mpr
      fun f hf => pass_not_fail (h f hf).2

/-- Witness for C8: a payload whose files all get `pass!`-prefixed output
validates without error. -/
theorem format_validator_claim_witness :
    validate_file_formats ["x_a.mp3", "x_ma.wav"]
      (fun _ => "pass! Everything is cool!") = Except.ok () :=
  format_validator_claim.2.2.1 ["x_a.mp3", "x_ma.wav"]
    (fun _ => "pass! Everything is cool!") (by decide)

theorem filter_wav_map_maName (r : String) (l : List Nat) :
    (l.map (maName r)).filter (fun n => strEndsWith n ".wav") =
      l.map (maName r) := by
  apply List.filter_eq_self.mpr
  intro a ha
  rcases List.mem_map.mp ha with ⟨i, _, rfl⟩
  exact wav_maName r i

/-- Counterexample for C6: the claim says removing any single Asset File from a
conformant payload raises `AssetValidationError`, but removing the
highest-numbered master from a three-master audio payload leaves a payload
that is conformant for two masters, so `validate_assets` succeeds. -/
theorem validate_assets_remove_claim_counterexample :
    validate_assets Format.audio "b90862f3baceaae3b7418c78f9d50d52"
        ["b90862f3baceaae3b7418c78f9d50d52_a.mp3",
         "b90862f3baceaae3b7418c78f9d50d52_ma_01.wav",
         "b90862f3baceaae3b7418c78f9d50d52_ma_02.wav",
         "b90862f3baceaae3b7418c78f9d50d52_ma_03.wav"] = Except.ok () ∧
    "b90862f3baceaae3b7418c78f9d50d52_ma_03.wav" ∈
      (["b90862f3baceaae3b7418c78f9d50d52_a.mp3",
        "b90862f3baceaae3b7418c78f9d50d52_ma_01.wav",
        "b90862f3baceaae3b7418c78f9d50d52_ma_02.wav",
        "b90862f3baceaae3b7418c78f9d50d52_ma_03.wav"] : List String) ∧
    validate_assets Format.audio "b90862f3baceaae3b7418c78f9d50d52"
        (["b90862f3baceaae3b7418c78f9d50d52_a.mp3",
          "b90862f3baceaae3b7418c78f9d50d52_ma_01.wav",
          "b90862f3baceaae3b7418c78f9d50d52_ma_02.wav",
          "b90862f3baceaae3b7418c78f9d50d52_ma_03.wav"].erase
            "b90862f3baceaae3b7418c78f9d50d52_ma_03.wav") = Except.ok () :=
  ⟨rfl, by decide, rfl⟩

/-- Claim C6 as amended: for every structurally-conformant payload, removing any
single Asset File makes the asset-structure check raise
`AssetValidationError`, unless the payload is audio with at least three
masters and the removed file is the highest-numbered master
`refid_ma_NN.wav` — that removal yields the conformant payload for one
master fewer, which passes. -/
theorem validate_assets_remove_file_amended (format : Format)
    (refid : String) (actual : List String) (f : String)
    (hnd : actual.Nodup)
    (hok : validate_assets format refid actual = Except.ok ())
    (hf : f ∈ actual)
    (hexc : format = Format.video ∨
      (get_master_files format actual).length ≤ 2 ∨
      f ≠ refid ++ "_ma_" ++
        zfill2 ((get_master_files format actual).length) ++ ".wav") :
    ∃ msg, validate_assets format refid (actual.erase f) =
      Except.error msg := by
  rw [validate_assets_def] at hok
  have hset := (structure_compare_ok_iff _ _).mp hok
  rw [validate_assets_def]
  apply structure_compare_error_of_ne
  cases format with
  | video =>
    rw [get_expected_structure_video] at hset
    have hfe : f ∈ ([refid ++ "_ma.mkv", refid ++ "_me.mov",
        refid ++ "_a.mp4"] : List String) := by
      have h1 : f ∈ actual.toFinset := List.mem_toFinset.mpr hf
      rw [← hset] at h1
      exact List.mem_toFinset.mp h1
    rw [get_expected_structure_video]
    exact toFinset_ne_of_mem_left hfe hnd.not_mem_erase
  | audio =>
    by_cases hm1 : (get_master_files Format.audio actual).length > 1
    case neg =>
      rw [get_expected_structure_audio_le_one refid hm1] at hset
      have hperm : actual.Perm [refid ++ "_a.mp3", refid ++ "_ma.wav"] :=
        List.perm_of_nodup_nodup_toFinset_eq hnd (audio_single_nodup refid)
          hset.symm
      have hfE := hperm.mem_iff.mp hf
      have hpermE := hperm.erase f
      have hlen_le :
          (get_master_files Format.audio (actual.erase f)).length ≤ 1 := by
        show ((actual.erase f).filter (fun n => strEndsWith n ".wav")).length ≤ 1
        rw [(hpermE.filter (fun n => strEndsWith n ".wav")).length_eq]
        calc (([refid ++ "_a.mp3", refid ++ "_ma.wav"].erase f).filter
                (fun n => strEndsWith n ".wav")).length
            ≤ ([refid ++ "_a.mp3", refid ++ "_ma.wav"].erase f).length :=
              List.length_filter_le _ _
          _ = 1 := by rw [List.length_erase_of_mem hfE]; rfl
      rw [get_expected_structure_audio_le_one refid (by omega)]
      exact toFinset_ne_of_mem_left hfE hnd.not_mem_erase
    case pos =>
      obtain ⟨m, hmeq⟩ :
          ∃ m, (get_master_files Format.audio actual).length = m := ⟨_, rfl⟩
      rw [hmeq] at hm1 hexc
      have hE0 : get_expected_structure Format.audio refid
          (get_master_files Format.audio actual) =
          (refid ++ "_a.mp3") :: (List.range m).map (maName refid) := by
        rw [get_expected_structure_audio_gt_one refid
          (by rw [hmeq]; exact hm1), hmeq]
      rw [hE0] at hset
      have hperm : actual.Perm
          ((refid ++ "_a.mp3") :: (List.range m).map (maName refid)) :=
        List.perm_of_nodup_nodup_toFinset_eq hnd (audio_multi_nodup refid m)
          hset.symm
      have hfE := hperm.mem_iff.mp hf
      have hpermE := hperm.erase f
      rcases List.mem_cons.mp hfE with hfa | hfM
      · -- the access file was removed
        have herase : (((refid ++ "_a.mp3") ::
            (List.range m).map (maName refid)).erase f) =
            (List.range m).map (maName refid) := by
          rw [hfa]
          exact List.erase_cons_head _ _
        have hlen :
            (get_master_files Format.audio (actual.erase f)).length = m := by
          show ((actual.erase f).filter (fun n => strEndsWith n ".wav")).length = m
          rw [(hpermE.filter (fun n => strEndsWith n ".wav")).length_eq, herase,
            filter_wav_map_maName, List.length_map, List.length_range]
        rw [get_expected_structure_audio_gt_one refid
          (by rw [hlen]; exact hm1), hlen]
        exact toFinset_ne_of_mem_left (hfa ▸ List.mem_cons_self _ _)
          hnd.not_mem_erase
      · -- a master file was removed
        rcases List.mem_map.mp hfM with ⟨k, hkrange, hfk⟩
        have ha3f : (refid ++ "_a.mp3") ≠ f := hfk ▸ a3_ne_maName refid k
        have herase : (((refid ++ "_a.mp3") ::
            (List.range m).map (maName refid)).erase f) =
            (refid ++ "_a.mp3") ::
              (((List.range m).map (maName refid)).erase f) :=
          List.erase_cons_tail (by simpa using ha3f)
        have hMerase : ((List.range m).map (maName refid)).erase f =
            ((List.range m).erase k).map (maName refid) := by
          rw [← hfk, List.map_erase (maName_injective refid)]
        have hlen : (get_master_files Format.audio (actual.erase f)).length =
            m - 1 := by
          show ((actual.erase f).filter (fun n => strEndsWith n ".wav")).length
            = m - 1
          rw [(hpermE.filter (fun n => strEndsWith n ".wav")).length_eq, herase]
          simp only [List.filter_cons, wav_a3, Bool.false_eq_true, if_false]
          rw [hMerase, filter_wav_map_maName, List.length_map,
            List.length_erase_of_mem hkrange, List.length_range]
        by_cases hm2 : m ≤ 2
        · -- two masters: the recomputed structure expects the unsuffixed name
          rw [get_expected_structure_audio_le_one refid (by rw [hlen]; omega)]
          apply toFinset_ne_of_mem_left
            (x := refid ++ "_ma.wav")
          · exact List.mem_cons_of_mem _ (List.mem_singleton_self _)
          · intro hmem
            have hmw_act : (refid ++ "_ma.wav") ∈ actual :=
              List.erase_subset f actual hmem
            rcases List.mem_cons.mp (hperm.mem_iff.mp hmw_act) with heq | hmem2
            · exact a3_ne_mw refid heq.symm
            · rcases List.mem_map.mp hmem2 with ⟨i, _, hi⟩
              exact mw_ne_maName refid i hi.symm
        · -- at least three masters: the top master must not be the one removed
          have hftop : f ≠ refid ++ "_ma_" ++ zfill2 m ++ ".wav" := by
            rcases hexc with hv | hle | hne
            · exact Format.noConfusion hv
            · omega
            · exact hne
          have htopname : maName refid (m - 1) =
              refid ++ "_ma_" ++ zfill2 m ++ ".wav" := by
            unfold maName
            rw [Nat.sub_add_cancel (by omega : 1 ≤ m)]
          have htop_ne_f : maName refid (m - 1) ≠ f := by
            intro he
            exact hftop (he ▸ htopname)
          rw [get_expected_structure_audio_gt_one refid
            (by rw [hlen]; omega), hlen]
          apply toFinset_ne_of_mem_right (x := maName refid (m - 1))
          · have hx_act : maName refid (m - 1) ∈ actual :=
              hperm.mem_iff.mpr (List.mem_cons_of_mem _
                (List.mem_map.mpr ⟨m - 1, List.mem_range.mpr (by omega), rfl⟩))
            exact (List.mem_erase_of_ne htop_ne_f).mpr hx_act
          · intro hmem
            rcases List.mem_cons.mp hmem with heq | hmem2
            · exact a3_ne_maName refid (m - 1) heq.symm
            · rcases List.mem_map.mp hmem2 with ⟨i, hi, hieq⟩
              have hik := maName_inj hieq
              have hilt := List.mem_range.mp hi
              omega

/-- Witness for C6's amended theorem: removing the access file from a
conformant single-master audio payload fails validation. -/
theorem validate_assets_remove_file_amended_witness :
    ∃ msg, validate_assets Format.audio "r"
        (["r_a.mp3", "r_ma.wav"].erase "r_a.mp3") = Except.error msg :=
  validate_assets_remove_file_amended Format.audio "r"
    ["r_a.mp3", "r_ma.wav"] "r_a.mp3" (by decide) rfl (by decide)
    (Or.inr (Or.inl (by decide)))

end DigitizedAV
